import Mathlib

/-!
Verification of the tideland/go-wait polling and throttling library.

The development shallowly embeds the library's Go source:

* `Wait.check` and `Wait.pollGo` embed `check` and `Poll` from the poll
  engine source file (panic containment, the cancelled / exceeded /
  condition-error / success return paths, and the deferred cancellation of
  the ticker's scope).
* `Wait.sanitizeJitter` and `Wait.jitterChanger` embed the parameter
  sanitization and the change function of `MakeJitteringTicker`.
* `Wait.throttleProcess` and `Wait.limiterWaitFresh` embed
  `Throttle.Process` together with the admission decision of the
  `golang.org/x/time/rate` limiter it delegates to.

Go error values built with `fmt.Errorf` are modelled by `Wait.GoError`:
the `%v` verb flattens the formatted text into a plain message, while the
`%w` verb keeps the wrapped error recoverable through `unwrap`, exactly as
`errors.Unwrap` does. Machine integers (`time.Duration`, `time.Time`
nanoseconds) are modelled as unbounded `Int` with the explicit
`maxInt64` bound where the Go source guards against int64 overflow.
-/

namespace Wait

/-- Model of a Go `error` value as produced by `fmt.Errorf`: either a plain
formatted message (`%v` and string verbs) or a wrapping error (`%w`) whose
inner error stays recoverable. -/
inductive GoError where
  | msg (s : String)
  | wrapped (pre : String) (inner : GoError)
  deriving DecidableEq

/-- The text produced by the `Error()` method of a modelled Go error.
For a wrapping error `fmt.Errorf("pre%w", inner)` this is the concatenation
of the literal text and the inner error's text. -/
def GoError.message : GoError → String
  | .msg s => s
  | .wrapped pre inner => pre ++ inner.message

/-- Model of `errors.Unwrap`: only errors created with `%w` unwrap. -/
def GoError.unwrap : GoError → Option GoError
  | .msg _ => none
  | .wrapped _ inner => some inner

/-- One invocation of a `ConditionFunc` either returns normally with
`(ok, err)` or panics with some payload (rendered as a string, the way
`fmt.Errorf("... %v", r)` renders the recovered value). -/
inductive CondOutcome where
  | ret (ok : Bool) (err : Option GoError)
  | panicked (payload : String)
  deriving DecidableEq

/-- Embedding of the private helper `check`: it runs the condition under a
deferred `recover`, so a normal return passes through unchanged while a
panic is converted to `(false, error describing the payload)` and never
propagates further. -/
def check : CondOutcome → Bool × Option GoError
  | .ret ok err => (ok, err)
  | .panicked v => (false, some (GoError.msg ("panic during condition check: " ++ v)))

/-- One resolution of the `select` inside `Poll`'s loop: either the
caller's context is observed done (carrying the text of `ctx.Err()`), or
the ticker channel delivers a value, or the ticker channel is observed
closed. A poll execution is driven by the list of these observations. -/
inductive TickEvent where
  | ctxDone (ctxErr : String)
  | tick
  | tickClosed
  deriving DecidableEq

/-- The parent from which a cancellation scope was derived:
`context.Background()` or the caller's `ctx`. -/
inductive CtxParent where
  | background
  | caller
  deriving DecidableEq

/-- The cancellation scope `tickCtx, cancel := context.WithCancel(...)`
that `Poll` starts its ticker against: the parent it was derived from and
whether its `cancel` function has been called. -/
structure TickScope where
  parent : CtxParent
  cancelled : Bool
  deriving DecidableEq

/-- The scope `Poll` creates on entry:
`context.WithCancel(context.Background())`, not yet cancelled. -/
def initialTickScope : TickScope := ⟨CtxParent.background, false⟩

/-- Result of a (possibly still running) poll loop: `running` models a loop
that has not yet returned after the observed events, `done err` models
`Poll` returning the Go error value `err` (with `none` for `nil`). -/
inductive PollOutcome where
  | running
  | done (err : Option GoError)
  deriving DecidableEq

/-- Embedding of the loop of `Poll`. The condition is modelled as the
sequence of outcomes of its successive invocations (`cond n` is the
outcome of check number `n`); the returned triple is the loop outcome, the
number of condition invocations performed, and the state of the ticker's
cancellation scope (every `return` statement fires the deferred `cancel`,
setting `cancelled := true`). An observed `ctxDone` returns the cancelled
error built with `%v` from `ctx.Err()`; an observed closed ticker channel
returns the exceeded error; a delivered tick runs `check` and returns the
condition error (checked before success, as in the source) or `nil`. -/
def pollGo (cond : Nat → CondOutcome) :
    List TickEvent → Nat → TickScope → PollOutcome × Nat × TickScope
  | [], n, s => (PollOutcome.running, n, s)
  | TickEvent.ctxDone e :: _, n, s =>
      (PollOutcome.done (some (GoError.msg ("context has been cancelled with error: " ++ e))),
        n, { s with cancelled := true })
  | TickEvent.tickClosed :: _, n, s =>
      (PollOutcome.done (some (GoError.msg "ticker exceeded while waiting for the condition")),
        n, { s with cancelled := true })
  | TickEvent.tick :: rest, n, s =>
      match check (cond n) with
      | (_, some e) =>
          (PollOutcome.done (some (GoError.msg ("poll condition returned error: " ++ e.message))),
            n + 1, { s with cancelled := true })
      | (true, none) => (PollOutcome.done none, n + 1, { s with cancelled := true })
      | (false, none) => pollGo cond rest (n + 1) s

/-- Embedding of `Poll(ctx, ticker, condition)`: start with zero checks and
the fresh ticker scope derived from `context.Background()`. -/
def Poll (events : List TickEvent) (cond : Nat → CondOutcome) :
    PollOutcome × Nat × TickScope :=
  pollGo cond events 0 initialTickScope

/-- Nanoseconds in `time.Millisecond`, the minimum interval enforced by
`MakeJitteringTicker`. -/
def nsPerMs : Int := 1000000

/-- The largest `int64`, the upper bound of Go's `time.Duration`
(`math.MaxInt64`). -/
def maxInt64 : Int := 9223372036854775807

/-- Embedding of the sanitization block of `MakeJitteringTicker`: floor the
interval to one millisecond, clamp a negative offset to zero, and cap the
interval so that `offset + interval` stays within `int64`. Returns the
sanitized `(interval, offset)`. -/
def sanitizeJitter (interval offset : Int) : Int × Int :=
  let i1 := if interval < nsPerMs then nsPerMs else interval
  let o1 := if offset < 0 then 0 else offset
  let i2 := if i1 > maxInt64 - o1 then maxInt64 - o1 else i1
  (i2, o1)

/-- Embedding of the `changer` closure of `MakeJitteringTicker`. `now` is
the current time and `next` the running scheduled fire time (both in
nanoseconds); `draw r` models `rand.Int(rand.Reader, big.NewInt(r))`, the
uniform draw from `[0, r)` (the reader never fails in the model). The
result is `none` for `(0, false)` — stop the ticker — and
`some (delay, next)` for `(delay, true)` with the advanced fire time.
Mirroring the source, the positivity check on the jitter range happens
only in the branch that shrinks the range to the remaining time before the
deadline. -/
def jitterChanger (interval offset deadline : Int) (draw : Int → Int)
    (now next : Int) : Option (Int × Int) :=
  if deadline < now then none
  else if deadline - now < offset + interval then
    let jitterRange := deadline - now - offset
    if jitterRange < 1 then none
    else
      let wait := offset + draw jitterRange
      let nxt := next + wait
      some (max (nxt - now) 0, nxt)
  else
    let wait := offset + draw interval
    let nxt := next + wait
    some (max (nxt - now) 0, nxt)

/-- A faithful model of `crypto/rand.Int(rand.Reader, big.NewInt(r))` for a
positive bound `r`: the drawn value lies in `[0, r)`. -/
def ValidDraw (f : Int → Int) : Prop :=
  ∀ r : Int, 1 ≤ r → 0 ≤ f r ∧ f r < r

/-- The pulse times of a jittering ticker under the prompt timing model:
each change-function call happens at the moment the previous pulse was
consumed (`now = next = t`, instantaneous condition checks), the ticker
sleeps for the returned delay and pulses at `t + delay`. One draw function
is consumed per change-function call; the list ends when the changer stops
or the observed draws run out. -/
def jitterPulses (interval offset deadline : Int) :
    List (Int → Int) → Int → List Int
  | [], _ => []
  | f :: rest, t =>
      match jitterChanger interval offset deadline f t t with
      | none => []
      | some (delay, _) =>
          (t + delay) :: jitterPulses interval offset deadline rest (t + delay)

/-- Modelled from the spec: `MakeGenericIntervalTicker` is not among the
source files (only its callers are), so the pulse stream it produces is
modelled from the spec's ticker-protocol description — when the change
function returns `continue = false` the stream is closed (yielding a
`tickClosed` observation for the poll loop), otherwise one pulse is
emitted after the returned delay. Timing follows the same prompt model as
`jitterPulses`. -/
def jitterEvents (interval offset deadline : Int) :
    List (Int → Int) → Int → List TickEvent
  | [], _ => []
  | f :: rest, t =>
      match jitterChanger interval offset deadline f t t with
      | none => [TickEvent.tickClosed]
      | some (delay, _) =>
          TickEvent.tick :: jitterEvents interval offset deadline rest (t + delay)

/-- The pulse times of `MakeJitteringTicker(interval, offset, timeout)`
created at time `startT`: the deadline is `startT + timeout` and the
sanitized parameters drive the change function. -/
def makeJitteringPulses (interval offset timeout startT : Int)
    (draws : List (Int → Int)) : List Int :=
  let s := sanitizeJitter interval offset
  jitterPulses s.1 s.2 (startT + timeout) draws startT

/-- The tick observations `Poll` receives from
`MakeJitteringTicker(interval, offset, timeout)` created at `startT`,
under the prompt timing model. -/
def makeJitteringEvents (interval offset timeout startT : Int)
    (draws : List (Int → Int)) : List TickEvent :=
  let s := sanitizeJitter interval offset
  jitterEvents s.1 s.2 (startT + timeout) draws startT

/-- The exact value of `math.MaxFloat64` (all float64 values involved here
are exactly representable, so rationals model them faithfully). -/
def maxFloat64 : ℚ := 2 ^ 1024 - 2 ^ 971

/-- The constant `wait.InfLimit = Limit(math.MaxFloat64)` from the
throttle source. -/
def InfLimit : ℚ := maxFloat64

/-- The constant `rate.Inf = Limit(math.MaxFloat64)` of the
`golang.org/x/time/rate` dependency: the infinite rate limit, which
"allows all events (even if burst is zero)". `InfLimit` and `rate.Inf`
are the same float64 constant, so they compare equal in Go. -/
def rateInf : ℚ := maxFloat64

/-- The admission decision of `rate.Limiter.Wait(ctx)` (that is,
`WaitN(ctx, n)` with `n = 1`) for a fresh limiter on a context that is not
done and carries no binding deadline. Mirroring the dependency's `wait`
method: if `n > burst` and the limit is not `Inf`, it fails immediately
with the burst error; otherwise a fresh limiter admits with zero delay (an
infinite limit admits regardless of burst, and a finite limit has `burst`
tokens available initially). -/
def limiterWaitFresh (limit : ℚ) (burst n : Nat) : Option GoError :=
  if n > burst ∧ limit ≠ rateInf then
    some (GoError.msg
      ("rate: Wait(n=" ++ toString n ++ ") exceeds limiter's burst " ++ toString burst))
  else none

/-- Embedding of `Throttle.Process(ctx, task)` from the throttle source:
wait on the limiter; if the wait fails, return its error wrapped with
`%w` under the prefix text and do not run the task; otherwise run the task
once and return its error unchanged. The second component counts task
invocations. -/
def throttleProcess (waitErr : Option GoError) (task : Option GoError) :
    Option GoError × Nat :=
  match waitErr with
  | some e => (some (GoError.wrapped "wait for throttle limiter: " e), 0)
  | none => (task, 1)

/-- `Throttle.Process` for a throttle freshly built by
`NewThrottle(limit, burst)` and called on a live context: the limiter wait
is the fresh-limiter admission decision for one token. -/
def processGoThrottle (limit : ℚ) (burst : Nat) (task : Option GoError) :
    Option GoError × Nat :=
  throttleProcess (limiterWaitFresh limit burst 1) task

/-- Modelled from the spec: the batch variant
`Throttle.Process(ctx, events...)` of the burst/token-bucket throttle is
absent from the source files (only its tests remain), so its
event-execution loop is modelled from the spec: execute the admitted
batch's events in order; when an event returns an error, stop issuing
further events and return an error identifying the event's position and
its underlying error ("processing event N returned error: ..."). Each
event is modelled by the error it returns; the result pairs the returned
error with the number of events started. -/
def runBatch : List (Option GoError) → Nat → Option GoError × Nat
  | [], _ => (none, 0)
  | none :: rest, idx =>
      let r := runBatch rest (idx + 1)
      (r.1, r.2 + 1)
  | some e :: _, idx =>
      (some (GoError.msg
        ("processing event " ++ toString idx ++ " returned error: " ++ e.message)), 1)

/-- The event-execution phase of an admitted batch, with positions counted
from zero as in the source's tests. -/
def batchProcessEvents (events : List (Option GoError)) : Option GoError × Nat :=
  runBatch events 0

/-- Recover the cancellation cause from the error `Poll` returns on a done
context: the fixed message head is followed by the text of `ctx.Err()`, so
dropping the head recovers the cause. -/
def textAfterCancelled (err : GoError) : String :=
  String.mk (err.message.data.drop "context has been cancelled with error: ".length)

/-- Skipping lemma for the poll loop: processing `m` ticks whose checks all
report "not yet" (`(false, nil)`) advances the check counter by `m` and
leaves the scope untouched. -/
theorem pollGo_skip (cond : Nat → CondOutcome) :
    ∀ (m n : Nat) (rest : List TickEvent) (s : TickScope),
      (∀ i, i < m → cond (n + i) = CondOutcome.ret false none) →
      pollGo cond (List.replicate m TickEvent.tick ++ rest) n s =
        pollGo cond rest (n + m) s := by
  intro m
  induction m with
  | zero => intro n rest s _; simp
  | succ m ih =>
      intro n rest s h
      have h0 : cond n = CondOutcome.ret false none := by
        simpa using h 0 (Nat.succ_pos m)
      rw [List.replicate_succ, List.cons_append]
      have step :
          pollGo cond (TickEvent.tick :: (List.replicate m TickEvent.tick ++ rest)) n s =
            pollGo cond (List.replicate m TickEvent.tick ++ rest) (n + 1) s := by
        simp [pollGo, h0, check]
      rw [step, ih (n + 1) rest s ?_]
      · congr 1
        omega
      · intro i hi
        have hx := h (i + 1) (by omega)
        have harg : n + (i + 1) = n + 1 + i := by omega
        rwa [harg] at hx

/-- C1: when the condition panics at check number `k` (after `k` checks that
reported "not yet"), `Poll` returns normally with an error describing the
panic payload — the panic is caught at the check boundary by `check`'s
deferred recover, converted to a condition error, and never propagates —
and the condition was invoked exactly `k + 1` times, one per delivered
tick up to and including the panicking check. -/
theorem poll_panic_becomes_error (cond : Nat → CondOutcome) (k : Nat)
    (rest : List TickEvent) (v : String)
    (hpre : ∀ i, i < k → cond i = CondOutcome.ret false none)
    (hk : cond k = CondOutcome.panicked v) :
    Poll (List.replicate (k + 1) TickEvent.tick ++ rest) cond =
      (PollOutcome.done (some (GoError.msg
        ("poll condition returned error: " ++ ("panic during condition check: " ++ v)))),
       k + 1, ⟨CtxParent.background, true⟩) := by
  unfold Poll
  rw [List.replicate_succ', List.append_assoc, List.singleton_append]
  rw [pollGo_skip cond k 0 _ _ (by intro i hi; simpa using hpre i hi)]
  simp [pollGo, hk, check, GoError.message, initialTickScope]

/-- Witness for `poll_panic_becomes_error` at a concrete poll: one failed
check, then a panicking check. -/
theorem poll_panic_becomes_error_witness :
    Poll (List.replicate 2 TickEvent.tick ++ [])
        (fun i => if i = 0 then CondOutcome.ret false none else CondOutcome.panicked "ouch") =
      (PollOutcome.done (some (GoError.msg
        ("poll condition returned error: " ++ ("panic during condition check: " ++ "ouch")))),
       2, ⟨CtxParent.background, true⟩) :=
  poll_panic_becomes_error _ 1 [] "ouch" (by decide) (by decide)

/-- C7: when check number `k` reports an application error (after `k`
checks that reported "not yet"), `Poll` terminates at that check and
returns the condition's error text propagated verbatim under the
"poll condition returned error: " wrapping; the check counter stays at
`k + 1` no matter how many further ticks the trace holds, so the condition
is never invoked again after the failing check. The error branch is taken
before the success test, as in the source. -/
theorem poll_condition_error_terminal (cond : Nat → CondOutcome) (k : Nat)
    (rest : List TickEvent) (b : Bool) (err : GoError)
    (hpre : ∀ i, i < k → cond i = CondOutcome.ret false none)
    (hk : cond k = CondOutcome.ret b (some err)) :
    Poll (List.replicate (k + 1) TickEvent.tick ++ rest) cond =
      (PollOutcome.done (some (GoError.msg
        ("poll condition returned error: " ++ err.message))),
       k + 1, ⟨CtxParent.background, true⟩) := by
  unfold Poll
  rw [List.replicate_succ', List.append_assoc, List.singleton_append]
  rw [pollGo_skip cond k 0 _ _ (by intro i hi; simpa using hpre i hi)]
  cases b <;> simp [pollGo, hk, check, initialTickScope]

/-- Witness for `poll_condition_error_terminal`: the second check errors
while two more ticks remain in the trace, and the check count stays at 2. -/
theorem poll_condition_error_terminal_witness :
    Poll (List.replicate 2 TickEvent.tick ++ [TickEvent.tick, TickEvent.tick])
        (fun i => if i = 0 then CondOutcome.ret false none
          else CondOutcome.ret false (some (GoError.msg "boom"))) =
      (PollOutcome.done (some (GoError.msg
        ("poll condition returned error: " ++ (GoError.msg "boom").message))),
       2, ⟨CtxParent.background, true⟩) :=
  poll_condition_error_terminal _ 1 [TickEvent.tick, TickEvent.tick] false
    (GoError.msg "boom") (by decide) (by decide)

/-- C2: when the poll loop observes the caller's context done (after `k`
checks that reported "not yet"), `Poll` returns the cancelled error whose
message is the fixed head followed by the text of `ctx.Err()`, so the
underlying cancellation cause is carried by the returned error and is
recovered from it by `textAfterCancelled`. The error is built with the
`%v` verb, embedding the cause's text in the message. -/
theorem poll_ctx_done_returns_cancelled (cond : Nat → CondOutcome) (k : Nat)
    (e : String) (rest : List TickEvent)
    (hpre : ∀ i, i < k → cond i = CondOutcome.ret false none) :
    Poll (List.replicate k TickEvent.tick ++ TickEvent.ctxDone e :: rest) cond =
      (PollOutcome.done (some (GoError.msg
        ("context has been cancelled with error: " ++ e))),
       k, ⟨CtxParent.background, true⟩) ∧
    textAfterCancelled (GoError.msg ("context has been cancelled with error: " ++ e)) = e := by
  constructor
  · unfold Poll
    rw [pollGo_skip cond k 0 _ _ (by intro i hi; simpa using hpre i hi)]
    simp [pollGo, initialTickScope]
  · simp [textAfterCancelled, GoError.message, String.data_append, String.length]

/-- Witness for `poll_ctx_done_returns_cancelled`: one failed check, then
the context is observed done with the standard cancellation text. -/
theorem poll_ctx_done_returns_cancelled_witness :
    Poll (List.replicate 1 TickEvent.tick ++ TickEvent.ctxDone "context canceled" :: [])
        (fun _ => CondOutcome.ret false none) =
      (PollOutcome.done (some (GoError.msg
        ("context has been cancelled with error: " ++ "context canceled"))),
       1, ⟨CtxParent.background, true⟩) ∧
    textAfterCancelled
        (GoError.msg ("context has been cancelled with error: " ++ "context canceled")) =
      "context canceled" :=
  poll_ctx_done_returns_cancelled (fun _ => CondOutcome.ret false none) 1
    "context canceled" [] (by decide)

/-- Structural invariant of the poll loop for the ticker's cancellation
scope: the scope's parent is never changed (it stays whatever it was
derived from), the scope is untouched while the loop is still running, and
every return path fires the deferred `cancel`. -/
theorem pollGo_scope_aux (cond : Nat → CondOutcome) :
    ∀ (events : List TickEvent) (n : Nat) (s : TickScope),
      (pollGo cond events n s).2.2.parent = s.parent ∧
      ((pollGo cond events n s).1 = PollOutcome.running →
        (pollGo cond events n s).2.2 = s) ∧
      ((pollGo cond events n s).1 ≠ PollOutcome.running →
        (pollGo cond events n s).2.2.cancelled = true) := by
  intro events
  induction events with
  | nil => intro n s; simp [pollGo]
  | cons ev rest ih =>
      intro n s
      cases ev with
      | ctxDone e => simp [pollGo]
      | tickClosed => simp [pollGo]
      | tick =>
          rcases hc : check (cond n) with ⟨ok, err⟩
          cases err with
          | some e => simp [pollGo, hc]
          | none =>
              cases ok with
              | true => simp [pollGo, hc]
              | false => simpa [pollGo, hc] using ih (n + 1) s

/-- C3: `Poll` starts its ticker against a scope derived from
`context.Background()` — independent of the caller's `ctx`, whose observed
doneness enters the loop only as a `ctxDone` event and never touches the
scope — and the scope ends up cancelled exactly when `Poll` has returned,
on every return path (success, condition error, exceeded, or cancelled),
by the deferred `cancel`; while the loop is still running the scope is
still uncancelled. -/
theorem poll_scope_background_and_cleanup (events : List TickEvent)
    (cond : Nat → CondOutcome) :
    (Poll events cond).2.2.parent = CtxParent.background ∧
    ((Poll events cond).2.2.cancelled = true ↔
      (Poll events cond).1 ≠ PollOutcome.running) := by
  obtain ⟨h1, h2, h3⟩ := pollGo_scope_aux cond events 0 initialTickScope
  refine ⟨by simpa [initialTickScope] using h1, ?_, h3⟩
  intro hc hrun
  have hs := h2 hrun
  unfold Poll at hs hc
  rw [hs] at hc
  simp [initialTickScope] at hc

/-- Witness for `poll_scope_background_and_cleanup` on a concrete trace
that ends with the ticker exhausted. -/
theorem poll_scope_background_and_cleanup_witness :
    (Poll [TickEvent.tick, TickEvent.tickClosed]
        (fun _ => CondOutcome.ret false none)).2.2.parent = CtxParent.background ∧
    ((Poll [TickEvent.tick, TickEvent.tickClosed]
        (fun _ => CondOutcome.ret false none)).2.2.cancelled = true ↔
      (Poll [TickEvent.tick, TickEvent.tickClosed]
        (fun _ => CondOutcome.ret false none)).1 ≠ PollOutcome.running) :=
  poll_scope_background_and_cleanup [TickEvent.tick, TickEvent.tickClosed]
    (fun _ => CondOutcome.ret false none)

/-- Closed form of the sanitization: the offset is clamped up to zero, the
interval is floored to a millisecond and then capped against `int64`
overflow of `offset + interval`. -/
theorem sanitizeJitter_eq (interval offset : Int) :
    sanitizeJitter interval offset =
      (min (max interval nsPerMs) (maxInt64 - max offset 0), max offset 0) := by
  simp only [sanitizeJitter]
  split_ifs <;> simp [Prod.ext_iff] <;> omega

/-- Any successful step of the jitter change function, taken at a state
where the scheduled fire time equals the current time, waits at least
`offset` and strictly less than `offset + interval`, and both the new fire
time and the pulse it schedules stay strictly before the deadline. -/
theorem jitterChanger_step (i o dl : Int) (f : Int → Int) (t : Int)
    (hf : ValidDraw f) (ho : 0 ≤ o) (hi : 1 ≤ i) (d nxt : Int)
    (h : jitterChanger i o dl f t t = some (d, nxt)) :
    o ≤ d ∧ d < o + i ∧ t + d < dl := by
  simp only [jitterChanger] at h
  split at h
  · exact absurd h (by simp)
  next h1 =>
    split at h
    next h2 =>
      split at h
      · exact absurd h (by simp)
      next h3 =>
        obtain ⟨hf0, hf1⟩ := hf (dl - t - o) (by omega)
        simp only [Option.some.injEq, Prod.mk.injEq] at h
        obtain ⟨hd, _⟩ := h
        have hw : t + (o + f (dl - t - o)) - t = o + f (dl - t - o) := by ring
        rw [hw] at hd
        have hmax : max (o + f (dl - t - o)) 0 = o + f (dl - t - o) :=
          max_eq_left (by omega)
        rw [hmax] at hd
        omega
    next h2 =>
      obtain ⟨hf0, hf1⟩ := hf i hi
      simp only [Option.some.injEq, Prod.mk.injEq] at h
      obtain ⟨hd, _⟩ := h
      have hw : t + (o + f i) - t = o + f i := by ring
      rw [hw] at hd
      have hmax : max (o + f i) 0 = o + f i := max_eq_left (by omega)
      rw [hmax] at hd
      omega

/-- Pulse-train invariant of the jitter ticker in the prompt timing model:
with a nonnegative offset and a positive interval, every gap in the chain
`t :: pulses` lies in `[offset, offset + interval)` and every pulse stays
at or before the deadline. -/
theorem jitterPulses_chain (i o dl : Int) (ho : 0 ≤ o) (hi : 1 ≤ i) :
    ∀ (draws : List (Int → Int)) (t : Int),
      (∀ f ∈ draws, ValidDraw f) →
      List.Chain' (fun p q => o ≤ q - p ∧ q - p < o + i)
        (t :: jitterPulses i o dl draws t) ∧
      ∀ p ∈ jitterPulses i o dl draws t, p ≤ dl := by
  intro draws
  induction draws with
  | nil => intro t _; simp [jitterPulses]
  | cons f rest ih =>
      intro t hv
      have hf : ValidDraw f := hv f (by simp)
      have hr : ∀ g ∈ rest, ValidDraw g := fun g hg => hv g (by simp [hg])
      rcases hch : jitterChanger i o dl f t t with _ | ⟨d, nxt⟩
      · simp [jitterPulses, hch]
      · obtain ⟨h1, h2, h3⟩ := jitterChanger_step i o dl f t hf ho hi d nxt hch
        obtain ⟨ihc, ihb⟩ := ih (t + d) hr
        constructor
        · simp only [jitterPulses, hch]
          exact List.chain'_cons.mpr ⟨⟨by omega, by omega⟩, ihc⟩
        · intro p hp
          simp only [jitterPulses, hch, List.mem_cons] at hp
          rcases hp with rfl | hp
          · omega
          · exact ihb p hp

/-- C4: for a jitter ticker built by `MakeJitteringTicker(interval, offset,
timeout)` at creation time `startT`, every gap between consecutive pulses
lies in the half-open range `[offset, offset + interval)` of the effective
(sanitized) parameters, and no pulse fires after `startT + timeout`.
Timing follows the prompt model in which each change-function call occurs
at the previous pulse; the offset hypothesis is the `int64` range of the
`time.Duration` argument. -/
theorem jitter_pulse_gaps_and_deadline (interval offset timeout startT : Int)
    (draws : List (Int → Int)) (hoff : offset < maxInt64)
    (hdraws : ∀ f ∈ draws, ValidDraw f) :
    List.Chain'
      (fun p q => (sanitizeJitter interval offset).2 ≤ q - p ∧
        q - p < (sanitizeJitter interval offset).2 + (sanitizeJitter interval offset).1)
      (makeJitteringPulses interval offset timeout startT draws) ∧
    ∀ p ∈ makeJitteringPulses interval offset timeout startT draws,
      p ≤ startT + timeout := by
  have hs := sanitizeJitter_eq interval offset
  have h2 : (sanitizeJitter interval offset).2 = max offset 0 := by rw [hs]
  have h1 : (sanitizeJitter interval offset).1 =
      min (max interval nsPerMs) (maxInt64 - max offset 0) := by rw [hs]
  have ho : 0 ≤ (sanitizeJitter interval offset).2 := by
    rw [h2]; omega
  have hi : 1 ≤ (sanitizeJitter interval offset).1 := by
    rw [h1]
    simp only [nsPerMs, maxInt64] at hoff ⊢
    omega
  obtain ⟨hc, hb⟩ := jitterPulses_chain (sanitizeJitter interval offset).1
    (sanitizeJitter interval offset).2 (startT + timeout) ho hi draws startT hdraws
  exact ⟨hc.tail, hb⟩

/-- Witness for `jitter_pulse_gaps_and_deadline` with a one-millisecond
interval, zero offset, a five-millisecond timeout, and one zero draw. -/
theorem jitter_pulse_gaps_and_deadline_witness :
    List.Chain'
      (fun p q => (sanitizeJitter nsPerMs 0).2 ≤ q - p ∧
        q - p < (sanitizeJitter nsPerMs 0).2 + (sanitizeJitter nsPerMs 0).1)
      (makeJitteringPulses nsPerMs 0 (5 * nsPerMs) 0 [fun _ => 0]) ∧
    ∀ p ∈ makeJitteringPulses nsPerMs 0 (5 * nsPerMs) 0 [fun _ => 0],
      p ≤ 0 + 5 * nsPerMs :=
  jitter_pulse_gaps_and_deadline nsPerMs 0 (5 * nsPerMs) 0 [fun _ => 0]
    (by norm_num [maxInt64])
    (by
      intro f hf
      simp only [List.mem_singleton] at hf
      subst hf
      intro r hr
      refine ⟨le_refl 0, ?_⟩
      show (0 : Int) < r
      omega)

/-- C8: `MakeJitteringTicker` sanitizes its parameters before use — the
effective offset is the given offset clamped up to zero, the effective
interval is the given interval floored to one millisecond and then capped
at `math.MaxInt64 - offset`, and consequently `offset + interval` cannot
overflow the `int64` range of `time.Duration`. -/
theorem jitter_sanitization (interval offset : Int) :
    (sanitizeJitter interval offset).2 = max offset 0 ∧
    (sanitizeJitter interval offset).1 =
      min (max interval nsPerMs) (maxInt64 - max offset 0) ∧
    0 ≤ (sanitizeJitter interval offset).2 ∧
    (sanitizeJitter interval offset).2 + (sanitizeJitter interval offset).1 ≤ maxInt64 := by
  have hs := sanitizeJitter_eq interval offset
  rw [hs]
  refine ⟨rfl, rfl, by omega, by omega⟩

/-- C9: with a nonpositive timeout the change function of
`MakeJitteringTicker` stops on its very first invocation — the deadline is
already strictly passed, or the jitter range shrunk to the remaining time
is nonpositive — so the ticker closes its stream without a single pulse,
and a `Poll` driven by it returns the exceeded error with the condition
never invoked. -/
theorem jitter_nonpositive_timeout_stops (interval offset timeout startT : Int)
    (f : Int → Int) (rest : List (Int → Int)) (cond : Nat → CondOutcome)
    (ht : timeout ≤ 0) :
    makeJitteringEvents interval offset timeout startT (f :: rest) =
      [TickEvent.tickClosed] ∧
    Poll (makeJitteringEvents interval offset timeout startT (f :: rest)) cond =
      (PollOutcome.done (some (GoError.msg "ticker exceeded while waiting for the condition")),
       0, ⟨CtxParent.background, true⟩) := by
  have hs := sanitizeJitter_eq interval offset
  have h2 : (sanitizeJitter interval offset).2 = max offset 0 := by rw [hs]
  have h1 : (sanitizeJitter interval offset).1 =
      min (max interval nsPerMs) (maxInt64 - max offset 0) := by rw [hs]
  have hsum : 1 ≤ (sanitizeJitter interval offset).2 + (sanitizeJitter interval offset).1 := by
    rw [h1, h2]
    simp only [nsPerMs, maxInt64]
    omega
  have ho : 0 ≤ (sanitizeJitter interval offset).2 := by
    rw [h2]; omega
  have hstop : jitterChanger (sanitizeJitter interval offset).1
      (sanitizeJitter interval offset).2 (startT + timeout) f startT startT = none := by
    simp only [jitterChanger]
    split
    · rfl
    next h1 =>
      rw [if_pos (by omega)]
      rw [if_pos (by omega)]
  have hev : makeJitteringEvents interval offset timeout startT (f :: rest) =
      [TickEvent.tickClosed] := by
    simp [makeJitteringEvents, jitterEvents, hstop]
  refine ⟨hev, ?_⟩
  rw [hev]
  simp [Poll, pollGo, initialTickScope]

/-- Witness for `jitter_nonpositive_timeout_stops` with a zero timeout. -/
theorem jitter_nonpositive_timeout_stops_witness :
    makeJitteringEvents nsPerMs 0 0 0 [fun _ => 0] = [TickEvent.tickClosed] ∧
    Poll (makeJitteringEvents nsPerMs 0 0 0 [fun _ => 0])
        (fun _ => CondOutcome.ret false none) =
      (PollOutcome.done (some (GoError.msg "ticker exceeded while waiting for the condition")),
       0, ⟨CtxParent.background, true⟩) :=
  jitter_nonpositive_timeout_stops nsPerMs 0 0 0 (fun _ => 0) []
    (fun _ => CondOutcome.ret false none) (by omega)

/-- C10: `Throttle.Process` runs the task exactly once precisely when the
limiter wait succeeds; a failed wait returns the limiter's error wrapped
with `%w` under the "wait for throttle limiter: " text, leaving the
underlying error recoverable by unwrapping, and the task is never run; a
successful wait returns the task's own error unchanged. -/
theorem throttle_process_limiter_gate (w t : Option GoError) (e : GoError) :
    throttleProcess none t = (t, 1) ∧
    throttleProcess (some e) t =
      (some (GoError.wrapped "wait for throttle limiter: " e), 0) ∧
    (GoError.wrapped "wait for throttle limiter: " e).unwrap = some e ∧
    (GoError.wrapped "wait for throttle limiter: " e).message =
      "wait for throttle limiter: " ++ e.message ∧
    ((throttleProcess w t).2 = 1 ↔ w = none) := by
  refine ⟨rfl, rfl, rfl, rfl, ?_⟩
  cases w <;> simp [throttleProcess]

/-- Witness for `throttle_process_limiter_gate` at a concrete limiter
error and a concrete task. -/
theorem throttle_process_limiter_gate_witness :
    throttleProcess none none = (none, 1) ∧
    throttleProcess (some (GoError.msg "ctx")) none =
      (some (GoError.wrapped "wait for throttle limiter: " (GoError.msg "ctx")), 0) ∧
    (GoError.wrapped "wait for throttle limiter: " (GoError.msg "ctx")).unwrap =
      some (GoError.msg "ctx") ∧
    (GoError.wrapped "wait for throttle limiter: " (GoError.msg "ctx")).message =
      "wait for throttle limiter: " ++ (GoError.msg "ctx").message ∧
    ((throttleProcess (some (GoError.msg "ctx")) none).2 = 1 ↔
      some (GoError.msg "ctx") = none) :=
  throttle_process_limiter_gate (some (GoError.msg "ctx")) none (GoError.msg "ctx")

/-- Counterexample to C5 as stated: a throttle built with
`NewThrottle(InfLimit, 0)` does not reject — `wait.InfLimit` is
`Limit(math.MaxFloat64)`, the very constant the rate package defines as
`Inf`, and an infinite limit admits every event even with burst 0 — so
`Process` executes the task once and returns no error instead of a
burst-capacity error with zero executions. The repository's own tests
expect exactly this success. -/
theorem throttle_inf_burst0_admits :
    processGoThrottle InfLimit 0 none = (none, 1) ∧
    limiterWaitFresh InfLimit 0 1 = none := by
  have h : limiterWaitFresh InfLimit 0 1 = none := by
    simp [limiterWaitFresh, InfLimit, rateInf]
  exact ⟨by simp [processGoThrottle, h, throttleProcess], h⟩

/-- C5 amended: with the infinite rate sentinel, burst 0 never rejects —
every `Process` call admits and runs its task once, returning the task's
result — while with any finite (non-`Inf`) rate and burst 0 every
`Process` call is rejected with the limiter's burst-capacity error
(wrapped by `Process`) and executes zero tasks. -/
theorem throttle_burst0_finite_vs_infinite :
    (∀ t : Option GoError, processGoThrottle InfLimit 0 t = (t, 1)) ∧
    (∀ (limit : ℚ) (t : Option GoError), limit ≠ rateInf →
      processGoThrottle limit 0 t =
        (some (GoError.wrapped "wait for throttle limiter: "
          (GoError.msg "rate: Wait(n=1) exceeds limiter's burst 0")), 0)) := by
  constructor
  · intro t
    simp [processGoThrottle, limiterWaitFresh, InfLimit, rateInf, throttleProcess]
  · intro limit t hl
    have hw : limiterWaitFresh limit 0 1 =
        some (GoError.msg "rate: Wait(n=1) exceeds limiter's burst 0") := by
      unfold limiterWaitFresh
      rw [if_pos ⟨by norm_num, hl⟩]
      decide
    simp [processGoThrottle, hw, throttleProcess]

/-- Witness for `throttle_burst0_finite_vs_infinite`: the infinite-rate
side at a failing task, and the finite side at rate 0. -/
theorem throttle_burst0_finite_vs_infinite_witness :
    processGoThrottle InfLimit 0 (some (GoError.msg "boom")) =
      (some (GoError.msg "boom"), 1) ∧
    processGoThrottle 0 0 none =
      (some (GoError.wrapped "wait for throttle limiter: "
        (GoError.msg "rate: Wait(n=1) exceeds limiter's burst 0")), 0) :=
  ⟨throttle_burst0_finite_vs_infinite.1 (some (GoError.msg "boom")),
   throttle_burst0_finite_vs_infinite.2 0 none (by norm_num [rateInf, maxFloat64])⟩

/-- First-error behaviour of the batch execution loop, for any starting
position: events before the failing one all ran, the failing event is
reported with its absolute position and underlying error text, and no
later event is started. -/
theorem runBatch_first_error (e : GoError) (post : List (Option GoError)) :
    ∀ (pre : List (Option GoError)) (idx : Nat), (∀ x ∈ pre, x = none) →
      runBatch (pre ++ some e :: post) idx =
        (some (GoError.msg ("processing event " ++ toString (idx + pre.length) ++
          " returned error: " ++ e.message)), pre.length + 1) := by
  intro pre
  induction pre with
  | nil => intro idx _; simp [runBatch]
  | cons x rest ih =>
      intro idx hx
      have hx0 : x = none := hx x (by simp)
      subst hx0
      rw [List.cons_append]
      simp only [runBatch, ih (idx + 1) (fun y hy => hx y (by simp [hy])),
        List.length_cons]
      have harith : idx + 1 + List.length rest = idx + (List.length rest + 1) := by
        omega
      rw [harith]

/-- C6: in an admitted batch whose events before position `N` succeed and
whose event at position `N` fails, `Throttle.Process` starts exactly the
first `N + 1` events — no event after the failing one is started — and
returns the error "processing event N returned error: ..." identifying
the failing event's position and its underlying error. -/
theorem batch_event_error_stops_batch (pre post : List (Option GoError)) (e : GoError)
    (hpre : ∀ x ∈ pre, x = none) :
    batchProcessEvents (pre ++ some e :: post) =
      (some (GoError.msg ("processing event " ++ toString pre.length ++
        " returned error: " ++ e.message)), pre.length + 1) := by
  have h := runBatch_first_error e post pre 0 hpre
  simpa [batchProcessEvents] using h

/-- Witness for `batch_event_error_stops_batch`: a three-event batch whose
second event fails; only two events start. -/
theorem batch_event_error_stops_batch_witness :
    batchProcessEvents [none, some (GoError.msg "ouch"), none] =
      (some (GoError.msg ("processing event " ++ toString 1 ++
        " returned error: " ++ (GoError.msg "ouch").message)), 2) :=
  batch_event_error_stops_batch [none] [none] (GoError.msg "ouch") (by simp)

end Wait
